import Mathlib

/-!
Verification of the `speki` repository against its specification.

Part 1 embeds `src/archive/pty_runner.py` (`run_with_pty`): the function
allocates a pty pair, spawns the child with the slave end as stdout/stderr,
closes the slave in the parent, optionally writes the input text to the
child's stdin pipe, opens the log file (when a path was given), then runs a
select/read/echo/tee polling loop and finally closes the master fd and the
log handle in a `finally` block, returning `(process.returncode, joined
output chunks)`.

The embedding drives the loop with a finite script of OS responses: each
outer iteration is an `OuterStep` (whether `select` reported the master fd
readable, what `os.read` would return, and what `process.poll` would
report), and the post-termination drain loop consumes a list of
`DrainStep`s.  Exhaustion of the script models the caller abandoning the
run.  Observable actions (spawn, fd closes, stdin/stdout/log writes, the
log-open failure) are recorded as an event trace.  Sink writes
(`sys.stdout.write`, `log_handle.write`) are modelled as non-failing; the
per-chunk `flush` calls are not separate events since each write event is
immediately flushed in the source.  A read already carries its decoded
text: `data.decode('utf-8', errors='replace')` never raises, and the
`if not data` empty-bytes check corresponds to the decoded chunk being
empty.
-/

/-- Outcome of one `os.read(master_fd, 1024)` call, post-decoding.
`data s` is a successful read whose decoded text is `s` (`s = ""` is the
empty read that signals end of stream, like `eof`); `rerr` is an `OSError`
raised by the read (caught by the loop); `rexc` is any other exception
raised inside the loop body, which the loop does not catch. -/
inductive ReadRes where
  | data (s : String)
  | eof
  | rerr
  | rexc
deriving DecidableEq

/-- One iteration of the outer polling loop of `run_with_pty`: whether
`select.select([master_fd], [], [], 0.1)` reported readiness, the read
outcome consulted only when ready, and what `process.poll()` would report
at this moment (`none` = child still running). -/
structure OuterStep where
  ready : Bool
  rd : ReadRes
  polled : Option Int
deriving DecidableEq

/-- One iteration of the final drain loop (after `process.poll()` detected
termination): the `select` readiness and the read outcome. -/
structure DrainStep where
  ready : Bool
  rd : ReadRes
deriving DecidableEq

/-- Observable actions performed by `run_with_pty`, in program order. -/
inductive PEvent where
  | spawnChild
  | closeSlave
  | writeStdin (s : String)
  | closeStdin
  | openLog
  | openLogFail
  | writeStdout (s : String)
  | writeLog (s : String)
  | closeMaster
  | closeLog
deriving DecidableEq

/-- The `log_file` argument of `run_with_pty`: absent, present and
openable, or present but failing to open (`open(log_file, 'w')` raises). -/
inductive LogArg where
  | noLog
  | logOk
  | logFail
deriving DecidableEq

/-- Mutable state of the streaming loop: `output_chunks`, the
`process.returncode` attribute as recorded by `poll`, the poll value that
triggered the final drain (if it was reached), and the event trace so
far. -/
structure LoopSt where
  chunks : List String
  rc : Option Int
  trigger : Option Int
  events : List PEvent
deriving DecidableEq

/-- Lines 49-59 / 75-81 of `pty_runner.py`: append the decoded chunk to
`output_chunks`, echo it to stdout (and flush), and tee it to the log
handle (and flush) when one is open. -/
def recordChunk (lg : Bool) (st : LoopSt) (s : String) : LoopSt :=
  { st with
      chunks := st.chunks ++ [s],
      events := st.events ++ [PEvent.writeStdout s] ++
        (if lg then [PEvent.writeLog s] else []) }

/-- `process.poll()`: returns the already-recorded exit status if any,
otherwise whatever the OS reports at this moment. -/
def pollUpdate (rc polled : Option Int) : Option Int :=
  match rc with
  | some c => some c
  | none => polled

/-- Lines 66-83 of `pty_runner.py`: after termination was detected, keep
reading while `select` reports data; an empty read ends the drain; an
`OSError` anywhere in the drain is swallowed (`except OSError: pass`);
any other exception propagates (second component `true`). -/
def drainLoop (lg : Bool) : LoopSt → List DrainStep → LoopSt × Bool
  | st, [] => (st, false)
  | st, d :: ds =>
    if d.ready then
      match d.rd with
      | ReadRes.data s =>
          if s = "" then (st, false)
          else drainLoop lg (recordChunk lg st s) ds
      | ReadRes.eof => (st, false)
      | ReadRes.rerr => (st, false)
      | ReadRes.rexc => (st, true)
    else (st, false)

/-- Lines 39-84 of `pty_runner.py`: the outer polling loop.  On a ready fd
it reads: an empty read breaks; a data chunk is recorded/echoed/teed; an
`OSError` breaks; another exception propagates (`true`).  Every surviving
iteration then polls the child; on observing termination it runs the drain
loop once and breaks. -/
def mainLoop (lg : Bool) : LoopSt → List OuterStep → List DrainStep → LoopSt × Bool
  | st, [], _ => (st, false)
  | st, o :: os, ds =>
    if o.ready then
      match o.rd with
      | ReadRes.data s =>
          if s = "" then (st, false)
          else
            let st1 := recordChunk lg st s
            match pollUpdate st1.rc o.polled with
            | some c => drainLoop lg { st1 with rc := some c, trigger := some c } ds
            | none => mainLoop lg st1 os ds
      | ReadRes.eof => (st, false)
      | ReadRes.rerr => (st, false)
      | ReadRes.rexc => (st, true)
    else
      match pollUpdate st.rc o.polled with
      | some c => drainLoop lg { st with rc := some c, trigger := some c } ds
      | none => mainLoop lg st os ds

/-- Lines 31-33 of `pty_runner.py`: `if input_data:` is a Python
truthiness test, so the stdin write-and-close happens only for a non-empty
input string. -/
def stdinEvents : Option String → List PEvent
  | some s => if s = "" then [] else [PEvent.writeStdin s, PEvent.closeStdin]
  | none => []

/-- Result of a run of `run_with_pty`: the returned pair `(exit,
captured)`, the event trace, whether an exception escaped the function
(`exc = true` means there was no normal return and `exit`/`captured` are
the values the return statement would have produced had it been reached),
and the poll value that triggered the final drain, if any. -/
structure PtyResult where
  exit : Option Int
  captured : String
  events : List PEvent
  exc : Bool
  trigger : Option Int
deriving DecidableEq

/-- `run_with_pty` (lines 13-91 of `pty_runner.py`), driven by an OS
script.  Order of operations, as in the source: `pty.openpty()`;
`subprocess.Popen(...)` (spawn); `os.close(slave_fd)`; the optional stdin
write; `open(log_file, 'w')` when a log path was given — a failing open
raises at this point, with no `try/finally` active yet, so nothing is
closed; then the `try:` loop; then the `finally:` block closing the master
fd and, when open, the log handle. -/
def run_with_pty (inp : Option String) (log : LogArg) (steps : List OuterStep)
    (ds : List DrainStep) : PtyResult :=
  let ev0 := [PEvent.spawnChild, PEvent.closeSlave] ++ stdinEvents inp
  match log with
  | LogArg.logFail =>
      { exit := none, captured := "", events := ev0 ++ [PEvent.openLogFail],
        exc := true, trigger := none }
  | LogArg.noLog =>
      let init : LoopSt := { chunks := [], rc := none, trigger := none, events := ev0 }
      let r := mainLoop false init steps ds
      { exit := r.1.rc, captured := String.join r.1.chunks,
        events := r.1.events ++ [PEvent.closeMaster], exc := r.2,
        trigger := r.1.trigger }
  | LogArg.logOk =>
      let init : LoopSt := { chunks := [], rc := none, trigger := none,
                             events := ev0 ++ [PEvent.openLog] }
      let r := mainLoop true init steps ds
      { exit := r.1.rc, captured := String.join r.1.chunks,
        events := r.1.events ++ [PEvent.closeMaster, PEvent.closeLog], exc := r.2,
        trigger := r.1.trigger }

/-- The chunks written to the live sink (stdout), in order. -/
def stdoutWrites (evs : List PEvent) : List String :=
  evs.filterMap fun e => match e with
    | PEvent.writeStdout s => some s
    | _ => none

/-- The chunks written to the log file, in order. -/
def logWrites (evs : List PEvent) : List String :=
  evs.filterMap fun e => match e with
    | PEvent.writeLog s => some s
    | _ => none

/-- Number of occurrences of an event in a trace. -/
def countEv (e : PEvent) (evs : List PEvent) : Nat := evs.count e

/-- Events the streaming loop itself can emit: only stdout and log chunk
writes. -/
def isChunkWrite : PEvent → Bool
  | PEvent.writeStdout _ => true
  | PEvent.writeLog _ => true
  | _ => false

example :
    (run_with_pty (some "hi") LogArg.logOk
      [⟨true, ReadRes.data "a", none⟩, ⟨false, ReadRes.eof, some 0⟩]
      [⟨true, ReadRes.data "b"⟩, ⟨false, ReadRes.eof⟩]).captured = "ab" := by
  decide

example :
    (run_with_pty (some "hi") LogArg.logOk
      [⟨true, ReadRes.data "a", none⟩, ⟨false, ReadRes.eof, some 3⟩]
      []).exit = some 3 := by
  decide


/-- The loop state `run_with_pty` enters its `try:` loop with, given the
startup event trace. -/
def loopInit (evs : List PEvent) : LoopSt :=
  { chunks := [], rc := none, trigger := none, events := evs }

/-- Startup events of a `run_with_pty` call whose log argument is `log`
(for the two non-raising log arguments). -/
def startupEvents (inp : Option String) (lg : Bool) : List PEvent :=
  ([PEvent.spawnChild, PEvent.closeSlave] ++ stdinEvents inp) ++
    (if lg then [PEvent.openLog] else [])

/-- The tee invariant: at every point of the streaming loop, the chunks
echoed to stdout and the chunks written to the log (when one is open) are
exactly `output_chunks`, in order. -/
def TeeInv (lg : Bool) (st : LoopSt) : Prop :=
  stdoutWrites st.events = st.chunks ∧
  logWrites st.events = (if lg then st.chunks else [])

lemma stdoutWrites_append (a b : List PEvent) :
    stdoutWrites (a ++ b) = stdoutWrites a ++ stdoutWrites b := by
  simp [stdoutWrites]

lemma logWrites_append (a b : List PEvent) :
    logWrites (a ++ b) = logWrites a ++ logWrites b := by
  simp [logWrites]

lemma stdoutWrites_sout (s : String) : stdoutWrites [PEvent.writeStdout s] = [s] := rfl

lemma stdoutWrites_slog (s : String) : stdoutWrites [PEvent.writeLog s] = [] := rfl

lemma logWrites_sout (s : String) : logWrites [PEvent.writeStdout s] = [] := rfl

lemma logWrites_slog (s : String) : logWrites [PEvent.writeLog s] = [s] := rfl

lemma stdoutWrites_pair (s : String) :
    stdoutWrites [PEvent.writeStdout s, PEvent.writeLog s] = [s] := rfl

lemma logWrites_pair (s : String) :
    logWrites [PEvent.writeStdout s, PEvent.writeLog s] = [s] := rfl

lemma stdoutWrites_nil : stdoutWrites [] = [] := rfl

lemma logWrites_nil : logWrites [] = [] := rfl

lemma teeInv_recordChunk (lg : Bool) (st : LoopSt) (s : String) (h : TeeInv lg st) :
    TeeInv lg (recordChunk lg st s) := by
  obtain ⟨h1, h2⟩ := h
  cases lg <;> refine ⟨?_, ?_⟩ <;>
    simp [recordChunk, stdoutWrites_append, logWrites_append, stdoutWrites_sout,
      stdoutWrites_slog, logWrites_sout, logWrites_slog, stdoutWrites_pair,
      logWrites_pair, stdoutWrites_nil, logWrites_nil, h1, h2]

lemma teeInv_drainLoop (lg : Bool) (ds : List DrainStep) :
    ∀ st : LoopSt, TeeInv lg st → TeeInv lg (drainLoop lg st ds).1 := by
  induction ds with
  | nil => exact fun st h => h
  | cons d ds ih =>
      intro st h
      obtain ⟨ready, rd⟩ := d
      cases ready
      · exact h
      · cases rd with
        | data s =>
            by_cases hs : s = ""
            · simp only [drainLoop, hs, if_pos, reduceIte]; exact h
            · simp only [drainLoop, hs, reduceIte]
              exact ih _ (teeInv_recordChunk lg st s h)
        | eof => exact h
        | rerr => exact h
        | rexc => exact h

lemma teeInv_mainLoop (lg : Bool) (ds : List DrainStep) :
    ∀ (steps : List OuterStep) (st : LoopSt),
      TeeInv lg st → TeeInv lg (mainLoop lg st steps ds).1 := by
  intro steps
  induction steps with
  | nil => exact fun st h => h
  | cons o os ih =>
      intro st h
      obtain ⟨ready, rd, polled⟩ := o
      cases ready
      · cases hpu : pollUpdate st.rc polled with
        | none =>
            simp only [mainLoop, hpu]
            exact ih st h
        | some c =>
            simp only [mainLoop, hpu]
            exact teeInv_drainLoop lg ds _ h
      · cases rd with
        | data s =>
            by_cases hs : s = ""
            · simp only [mainLoop, hs, reduceIte]; exact h
            · have hrec := teeInv_recordChunk lg st s h
              cases hpu : pollUpdate (recordChunk lg st s).rc polled with
              | none =>
                  simp only [mainLoop, hs, reduceIte, hpu]
                  exact ih _ hrec
              | some c =>
                  simp only [mainLoop, hs, reduceIte, hpu]
                  exact teeInv_drainLoop lg ds _ hrec
        | eof => exact h
        | rerr => exact h
        | rexc => exact h

lemma stdoutWrites_stdinEvents (inp : Option String) :
    stdoutWrites (stdinEvents inp) = [] := by
  cases inp with
  | none => rfl
  | some s => by_cases h : s = "" <;> simp [stdinEvents, h, stdoutWrites]

lemma logWrites_stdinEvents (inp : Option String) :
    logWrites (stdinEvents inp) = [] := by
  cases inp with
  | none => rfl
  | some s => by_cases h : s = "" <;> simp [stdinEvents, h, logWrites]

lemma stdoutWrites_spawnPair :
    stdoutWrites [PEvent.spawnChild, PEvent.closeSlave] = [] := rfl

lemma logWrites_spawnPair :
    logWrites [PEvent.spawnChild, PEvent.closeSlave] = [] := rfl

lemma stdoutWrites_openLog : stdoutWrites [PEvent.openLog] = [] := rfl

lemma logWrites_openLog : logWrites [PEvent.openLog] = [] := rfl

lemma stdoutWrites_closes :
    stdoutWrites [PEvent.closeMaster, PEvent.closeLog] = [] := rfl

lemma logWrites_closes :
    logWrites [PEvent.closeMaster, PEvent.closeLog] = [] := rfl

lemma stdoutWrites_closeMaster : stdoutWrites [PEvent.closeMaster] = [] := rfl

lemma logWrites_closeMaster : logWrites [PEvent.closeMaster] = [] := rfl

lemma stdoutWrites_cons_spawn (l : List PEvent) :
    stdoutWrites (PEvent.spawnChild :: l) = stdoutWrites l := rfl

lemma stdoutWrites_cons_closeSlave (l : List PEvent) :
    stdoutWrites (PEvent.closeSlave :: l) = stdoutWrites l := rfl

lemma logWrites_cons_spawn (l : List PEvent) :
    logWrites (PEvent.spawnChild :: l) = logWrites l := rfl

lemma logWrites_cons_closeSlave (l : List PEvent) :
    logWrites (PEvent.closeSlave :: l) = logWrites l := rfl

lemma teeInv_startup (inp : Option String) (lg : Bool) :
    TeeInv lg (loopInit (startupEvents inp lg)) := by
  refine ⟨?_, ?_⟩ <;>
    cases lg <;>
      simp [loopInit, startupEvents, stdoutWrites_append, logWrites_append,
        stdoutWrites_stdinEvents, logWrites_stdinEvents, stdoutWrites_cons_spawn,
        stdoutWrites_cons_closeSlave, logWrites_cons_spawn, logWrites_cons_closeSlave,
        stdoutWrites_openLog, logWrites_openLog,
        stdoutWrites_nil, logWrites_nil, TeeInv]

/-- Claim C1: in a run of `run_with_pty` with a log destination, the
sequence of chunks echoed to the live sink (stdout), the sequence of
chunks written to the log file, and the returned captured text agree: the
two write sequences are equal lists (hence the same bytes in the same
order as read from the master endpoint), and the captured text is their
concatenation. -/
theorem run_with_pty_tee_consistency (inp : Option String) (steps : List OuterStep)
    (ds : List DrainStep) :
    stdoutWrites (run_with_pty inp LogArg.logOk steps ds).events =
      logWrites (run_with_pty inp LogArg.logOk steps ds).events ∧
    (run_with_pty inp LogArg.logOk steps ds).captured =
      String.join (stdoutWrites (run_with_pty inp LogArg.logOk steps ds).events) ∧
    (run_with_pty inp LogArg.logOk steps ds).captured =
      String.join (logWrites (run_with_pty inp LogArg.logOk steps ds).events) := by
  have hinv := teeInv_mainLoop true ds steps (loopInit (startupEvents inp true))
    (teeInv_startup inp true)
  obtain ⟨h1, h2⟩ := hinv
  have hre : run_with_pty inp LogArg.logOk steps ds =
      { exit := (mainLoop true (loopInit (startupEvents inp true)) steps ds).1.rc,
        captured :=
          String.join (mainLoop true (loopInit (startupEvents inp true)) steps ds).1.chunks,
        events := (mainLoop true (loopInit (startupEvents inp true)) steps ds).1.events ++
          [PEvent.closeMaster, PEvent.closeLog],
        exc := (mainLoop true (loopInit (startupEvents inp true)) steps ds).2,
        trigger := (mainLoop true (loopInit (startupEvents inp true)) steps ds).1.trigger } :=
    rfl
  rw [hre]
  simp only [if_pos, reduceIte] at h2
  simp [stdoutWrites_append, logWrites_append, stdoutWrites_closes,
    logWrites_closes, h1, h2]

lemma countEv_append (e : PEvent) (a b : List PEvent) :
    countEv e (a ++ b) = countEv e a + countEv e b := by
  simp [countEv, List.count_append]

lemma countEv_recordChunk (lg : Bool) (st : LoopSt) (s : String) (e : PEvent)
    (he : isChunkWrite e = false) :
    countEv e (recordChunk lg st s).events = countEv e st.events := by
  have h1 : e ≠ PEvent.writeStdout s := by
    intro h; subst h; simp [isChunkWrite] at he
  have h2 : e ≠ PEvent.writeLog s := by
    intro h; subst h; simp [isChunkWrite] at he
  cases lg <;>
    simp [recordChunk, countEv, List.count_append, List.count_cons, h1, h2]

lemma countEv_drainLoop (lg : Bool) (e : PEvent) (he : isChunkWrite e = false)
    (ds : List DrainStep) :
    ∀ st : LoopSt, countEv e (drainLoop lg st ds).1.events = countEv e st.events := by
  induction ds with
  | nil => exact fun st => rfl
  | cons d ds ih =>
      intro st
      obtain ⟨ready, rd⟩ := d
      cases ready
      · rfl
      · cases rd with
        | data s =>
            by_cases hs : s = ""
            · simp only [drainLoop, hs, reduceIte]
            · simp only [drainLoop, hs, reduceIte]
              rw [ih _, countEv_recordChunk lg st s e he]
        | eof => rfl
        | rerr => rfl
        | rexc => rfl

lemma countEv_mainLoop (lg : Bool) (e : PEvent) (he : isChunkWrite e = false)
    (ds : List DrainStep) :
    ∀ (steps : List OuterStep) (st : LoopSt),
      countEv e (mainLoop lg st steps ds).1.events = countEv e st.events := by
  intro steps
  induction steps with
  | nil => exact fun st => rfl
  | cons o os ih =>
      intro st
      obtain ⟨ready, rd, polled⟩ := o
      cases ready
      · cases hpu : pollUpdate st.rc polled with
        | none => simp only [mainLoop, hpu]; exact ih st
        | some c =>
            simp only [mainLoop, hpu]
            exact countEv_drainLoop lg e he ds _
      · cases rd with
        | data s =>
            by_cases hs : s = ""
            · simp only [mainLoop, hs, reduceIte]
            · cases hpu : pollUpdate (recordChunk lg st s).rc polled with
              | none =>
                  simp only [mainLoop, hs, reduceIte, hpu]
                  rw [ih _, countEv_recordChunk lg st s e he]
              | some c =>
                  simp only [mainLoop, hs, reduceIte, hpu]
                  rw [countEv_drainLoop lg e he ds _]
                  exact countEv_recordChunk lg st s e he
        | eof => rfl
        | rerr => rfl
        | rexc => rfl

/-- Whether an event belongs to the stdin-delivery step. -/
def isStdinEv : PEvent → Bool
  | PEvent.writeStdin _ => true
  | PEvent.closeStdin => true
  | _ => false

lemma countEv_stdinEvents (e : PEvent) (he : isStdinEv e = false)
    (inp : Option String) : countEv e (stdinEvents inp) = 0 := by
  cases inp with
  | none => rfl
  | some s =>
      have h1 : e ≠ PEvent.writeStdin s := by
        intro h; subst h; simp [isStdinEv] at he
      have h2 : e ≠ PEvent.closeStdin := by
        intro h; subst h; simp [isStdinEv] at he
      by_cases h : s = "" <;>
        simp [stdinEvents, h, countEv, List.count_cons, h1, h2]

lemma run_with_pty_noLog_eq (inp : Option String) (steps : List OuterStep)
    (ds : List DrainStep) :
    run_with_pty inp LogArg.noLog steps ds =
      { exit := (mainLoop false
          (loopInit ([PEvent.spawnChild, PEvent.closeSlave] ++ stdinEvents inp))
          steps ds).1.rc,
        captured := String.join (mainLoop false
          (loopInit ([PEvent.spawnChild, PEvent.closeSlave] ++ stdinEvents inp))
          steps ds).1.chunks,
        events := (mainLoop false
          (loopInit ([PEvent.spawnChild, PEvent.closeSlave] ++ stdinEvents inp))
          steps ds).1.events ++ [PEvent.closeMaster],
        exc := (mainLoop false
          (loopInit ([PEvent.spawnChild, PEvent.closeSlave] ++ stdinEvents inp))
          steps ds).2,
        trigger := (mainLoop false
          (loopInit ([PEvent.spawnChild, PEvent.closeSlave] ++ stdinEvents inp))
          steps ds).1.trigger } := rfl

lemma run_with_pty_logOk_eq (inp : Option String) (steps : List OuterStep)
    (ds : List DrainStep) :
    run_with_pty inp LogArg.logOk steps ds =
      { exit := (mainLoop true
          (loopInit (([PEvent.spawnChild, PEvent.closeSlave] ++ stdinEvents inp) ++
            [PEvent.openLog])) steps ds).1.rc,
        captured := String.join (mainLoop true
          (loopInit (([PEvent.spawnChild, PEvent.closeSlave] ++ stdinEvents inp) ++
            [PEvent.openLog])) steps ds).1.chunks,
        events := (mainLoop true
          (loopInit (([PEvent.spawnChild, PEvent.closeSlave] ++ stdinEvents inp) ++
            [PEvent.openLog])) steps ds).1.events ++
          [PEvent.closeMaster, PEvent.closeLog],
        exc := (mainLoop true
          (loopInit (([PEvent.spawnChild, PEvent.closeSlave] ++ stdinEvents inp) ++
            [PEvent.openLog])) steps ds).2,
        trigger := (mainLoop true
          (loopInit (([PEvent.spawnChild, PEvent.closeSlave] ++ stdinEvents inp) ++
            [PEvent.openLog])) steps ds).1.trigger } := rfl

/-- Claim C3: on every exit path of the streaming loop of `run_with_pty`
(end of stream, read error, uncaught exception, or truncation of the OS
script, which models caller abandonment), the master endpoint is closed
exactly once, and the log handle is closed exactly once when a log was
opened and never otherwise — for every OS script, including scripts whose
reads fail or raise. -/
theorem run_with_pty_close_exactly_once (inp : Option String)
    (steps : List OuterStep) (ds : List DrainStep) :
    countEv PEvent.closeMaster (run_with_pty inp LogArg.noLog steps ds).events = 1 ∧
    countEv PEvent.closeLog (run_with_pty inp LogArg.noLog steps ds).events = 0 ∧
    countEv PEvent.closeMaster (run_with_pty inp LogArg.logOk steps ds).events = 1 ∧
    countEv PEvent.closeLog (run_with_pty inp LogArg.logOk steps ds).events = 1 := by
  rw [run_with_pty_noLog_eq, run_with_pty_logOk_eq]
  simp only [countEv_append]
  rw [countEv_mainLoop false PEvent.closeMaster rfl ds steps,
    countEv_mainLoop false PEvent.closeLog rfl ds steps,
    countEv_mainLoop true PEvent.closeMaster rfl ds steps,
    countEv_mainLoop true PEvent.closeLog rfl ds steps]
  simp only [loopInit, countEv_append]
  rw [countEv_stdinEvents PEvent.closeMaster rfl inp,
    countEv_stdinEvents PEvent.closeLog rfl inp]
  refine ⟨?_, ?_, ?_, ?_⟩ <;> rfl

lemma run_with_pty_logFail_eq (inp : Option String) (steps : List OuterStep)
    (ds : List DrainStep) :
    run_with_pty inp LogArg.logFail steps ds =
      { exit := none, captured := "",
        events := ([PEvent.spawnChild, PEvent.closeSlave] ++ stdinEvents inp) ++
          [PEvent.openLogFail],
        exc := true, trigger := none } := rfl

/-- Claim C10: an empty input string behaves exactly as absent input —
the whole run is identical, and in particular nothing is ever written to
the child's stdin pipe and the pipe is never closed, for any log argument
and any OS script. -/
theorem run_with_pty_empty_input_no_stdin (log : LogArg) (steps : List OuterStep)
    (ds : List DrainStep) :
    run_with_pty (some "") log steps ds = run_with_pty none log steps ds ∧
    (∀ s : String,
      countEv (PEvent.writeStdin s) (run_with_pty (some "") log steps ds).events = 0) ∧
    countEv PEvent.closeStdin (run_with_pty (some "") log steps ds).events = 0 := by
  have hs : stdinEvents (some "") = stdinEvents none := rfl
  refine ⟨?_, ?_, ?_⟩
  · cases log <;> rfl
  · intro s
    cases log
    · rw [run_with_pty_noLog_eq]
      simp only [countEv_append]
      rw [countEv_mainLoop false (PEvent.writeStdin s) rfl ds steps]
      simp only [loopInit, countEv_append, hs]
      rfl
    · rw [run_with_pty_logOk_eq]
      simp only [countEv_append]
      rw [countEv_mainLoop true (PEvent.writeStdin s) rfl ds steps]
      simp only [loopInit, countEv_append, hs]
      rfl
    · rw [run_with_pty_logFail_eq]
      simp only [countEv_append, hs]
      rfl
  · cases log
    · rw [run_with_pty_noLog_eq]
      simp only [countEv_append]
      rw [countEv_mainLoop false PEvent.closeStdin rfl ds steps]
      simp only [loopInit, countEv_append, hs]
      rfl
    · rw [run_with_pty_logOk_eq]
      simp only [countEv_append]
      rw [countEv_mainLoop true PEvent.closeStdin rfl ds steps]
      simp only [loopInit, countEv_append, hs]
      rfl
    · rw [run_with_pty_logFail_eq]
      simp only [countEv_append, hs]
      rfl

/-- Claim C2 (code behavior at the failing input): when the log
destination cannot be opened, `run_with_pty` raises — but only after the
child process has already been spawned, because `open(log_file, 'w')` at
line 36 runs after `subprocess.Popen` at line 20.  The trace also shows
that neither the master endpoint nor anything else is closed on this path
(the `try/finally` has not been entered). -/
theorem run_with_pty_log_open_failure_after_spawn :
    (run_with_pty none LogArg.logFail [] []).events =
      [PEvent.spawnChild, PEvent.closeSlave, PEvent.openLogFail] ∧
    (run_with_pty none LogArg.logFail [] []).exc = true ∧
    PEvent.spawnChild ∈ (run_with_pty none LogArg.logFail [] []).events ∧
    countEv PEvent.closeMaster (run_with_pty none LogArg.logFail [] []).events = 0 := by
  refine ⟨rfl, rfl, ?_, rfl⟩
  rw [run_with_pty_logFail_eq]
  simp [stdinEvents]

lemma mainLoop_rerr_eq_eof (lg : Bool) (ds : List DrainStep) (p : Option Int)
    (s2 : List OuterStep) :
    ∀ (s1 : List OuterStep) (st : LoopSt),
      mainLoop lg st (s1 ++ ⟨true, ReadRes.rerr, p⟩ :: s2) ds =
        mainLoop lg st (s1 ++ ⟨true, ReadRes.eof, p⟩ :: s2) ds := by
  intro s1
  induction s1 with
  | nil => intro st; rfl
  | cons o os ih =>
      intro st
      obtain ⟨ready, rd, polled⟩ := o
      cases ready
      · cases hpu : pollUpdate st.rc polled with
        | none => simp only [List.cons_append, mainLoop, hpu]; exact ih st
        | some c =>
            simp only [List.cons_append, mainLoop, hpu]
            rfl
      · cases rd with
        | data s =>
            by_cases hs : s = ""
            · simp only [List.cons_append, mainLoop, hs, reduceIte]
            · cases hpu : pollUpdate (recordChunk lg st s).rc polled with
              | none =>
                  simp only [List.cons_append, mainLoop, hs, reduceIte, hpu]
                  exact ih _
              | some c =>
                  simp only [List.cons_append, mainLoop, hs, reduceIte, hpu]
        | eof => rfl
        | rerr => rfl
        | rexc => rfl

lemma drainLoop_rc_trigger (lg : Bool) (ds : List DrainStep) :
    ∀ st : LoopSt, (drainLoop lg st ds).1.rc = st.rc ∧
      (drainLoop lg st ds).1.trigger = st.trigger := by
  induction ds with
  | nil => exact fun st => ⟨rfl, rfl⟩
  | cons d ds ih =>
      intro st
      obtain ⟨ready, rd⟩ := d
      cases ready
      · exact ⟨rfl, rfl⟩
      · cases rd with
        | data s =>
            by_cases hs : s = ""
            · simp [drainLoop, hs]
            · simp only [drainLoop, hs, reduceIte]
              exact ih _
        | eof => exact ⟨rfl, rfl⟩
        | rerr => exact ⟨rfl, rfl⟩
        | rexc => exact ⟨rfl, rfl⟩

lemma mainLoop_trigger_exit (lg : Bool) (ds : List DrainStep) :
    ∀ (steps : List OuterStep) (st : LoopSt), st.trigger = none →
      ∀ c : Int, (mainLoop lg st steps ds).1.trigger = some c →
        (mainLoop lg st steps ds).1.rc = some c := by
  intro steps
  induction steps with
  | nil =>
      intro st h c hc
      rw [show (mainLoop lg st [] ds).1.trigger = st.trigger from rfl, h] at hc
      exact absurd hc (by simp)
  | cons o os ih =>
      intro st h c hc
      obtain ⟨ready, rd, polled⟩ := o
      cases ready
      · cases hpu : pollUpdate st.rc polled with
        | none =>
            simp only [mainLoop, hpu] at hc ⊢
            exact ih st h c hc
        | some c' =>
            simp only [mainLoop, hpu] at hc ⊢
            have hc' : (drainLoop lg { st with rc := some c', trigger := some c' } ds).1.trigger
                = some c := hc
            have hd := drainLoop_rc_trigger lg ds
              { st with rc := some c', trigger := some c' }
            rw [hd.2] at hc'
            have hgoal : (drainLoop lg { st with rc := some c', trigger := some c' } ds).1.rc
                = some c := by rw [hd.1]; exact hc'
            exact hgoal
      · cases rd with
        | data s =>
            by_cases hs : s = ""
            · simp only [mainLoop, hs, reduceIte] at hc ⊢
              rw [show (st, false).1.trigger = st.trigger from rfl, h] at hc
              exact absurd hc (by simp)
            · cases hpu : pollUpdate (recordChunk lg st s).rc polled with
              | none =>
                  simp only [mainLoop, hs, reduceIte, hpu] at hc ⊢
                  exact ih (recordChunk lg st s) h c hc
              | some c' =>
                  simp only [mainLoop, hs, reduceIte, hpu] at hc ⊢
                  have hc' : (drainLoop lg
                      { recordChunk lg st s with rc := some c', trigger := some c' } ds).1.trigger
                      = some c := hc
                  have hd := drainLoop_rc_trigger lg ds
                    { recordChunk lg st s with rc := some c', trigger := some c' }
                  rw [hd.2] at hc'
                  have hgoal : (drainLoop lg
                      { recordChunk lg st s with rc := some c', trigger := some c' } ds).1.rc
                      = some c := by rw [hd.1]; exact hc'
                  exact hgoal
        | eof =>
            rw [show (mainLoop lg st (⟨true, ReadRes.eof, polled⟩ :: os) ds).1.trigger =
              st.trigger from rfl, h] at hc
            exact absurd hc (by simp)
        | rerr =>
            rw [show (mainLoop lg st (⟨true, ReadRes.rerr, polled⟩ :: os) ds).1.trigger =
              st.trigger from rfl, h] at hc
            exact absurd hc (by simp)
        | rexc =>
            rw [show (mainLoop lg st (⟨true, ReadRes.rexc, polled⟩ :: os) ds).1.trigger =
              st.trigger from rfl, h] at hc
            exact absurd hc (by simp)

/-- Claim C4 counterexample: a run ended early by a read error in the main
loop returns `none` as its first component even though the OS script
reports that the child has exited with status 5 at that very iteration
(`polled = some 5`): the claim's assertion that the first component is the
child's exit status fails.  The third conjunct shows the same OS state
observed through the poll (select not ready) does yield `some 5`, so the
script genuinely describes a child that exited with status 5. -/
theorem run_with_pty_read_error_exit_counterexample :
    (([⟨true, ReadRes.rerr, some 5⟩] : List OuterStep).map OuterStep.polled
      = [some 5]) ∧
    (run_with_pty none LogArg.noLog [⟨true, ReadRes.rerr, some 5⟩] []).exit = none ∧
    (run_with_pty none LogArg.noLog [⟨false, ReadRes.rerr, some 5⟩] []).exit = some 5 := by
  refine ⟨rfl, rfl, rfl⟩

/-- Claim C4 (amended): a read error on the master endpoint is never
reported as the run's outcome — replacing a read error by a normal end of
stream at the same point of the script yields the very same result — and
whenever the run ends through detection of child termination (the final
drain was entered on a poll reporting status `c`), the first component of
the returned pair is that exit status `c`.  (If the read error ends the
main loop before any poll observed termination, the recorded status is
absent.) -/
theorem run_with_pty_exit_status_amended (inp : Option String) (log : LogArg)
    (ds : List DrainStep) (s1 s2 : List OuterStep) (p : Option Int)
    (steps : List OuterStep) (c : Int)
    (h : (run_with_pty inp log steps ds).trigger = some c) :
    run_with_pty inp log (s1 ++ ⟨true, ReadRes.rerr, p⟩ :: s2) ds =
      run_with_pty inp log (s1 ++ ⟨true, ReadRes.eof, p⟩ :: s2) ds ∧
    (run_with_pty inp log steps ds).exit = some c := by
  constructor
  · cases log
    · rw [run_with_pty_noLog_eq, run_with_pty_noLog_eq,
        mainLoop_rerr_eq_eof false ds p s2 s1]
    · rw [run_with_pty_logOk_eq, run_with_pty_logOk_eq,
        mainLoop_rerr_eq_eof true ds p s2 s1]
    · rfl
  · cases log
    · rw [run_with_pty_noLog_eq] at h ⊢
      exact mainLoop_trigger_exit false ds steps _ rfl c h
    · rw [run_with_pty_logOk_eq] at h ⊢
      exact mainLoop_trigger_exit true ds steps _ rfl c h
    · rw [run_with_pty_logFail_eq] at h
      exact absurd h (by simp)

theorem run_with_pty_exit_status_amended_witness :
    (run_with_pty none LogArg.noLog [⟨false, ReadRes.eof, some 0⟩] []).exit = some 0 :=
  (run_with_pty_exit_status_amended none LogArg.noLog [] [] [] none
    [⟨false, ReadRes.eof, some 0⟩] 0 (by rfl)).2

/-!
Part 2 embeds `src/archive/stream_parser.py` (`main`): an incremental
decoder that, for each stdin line, writes the raw line to the jsonl
archive and flushes, strips it, parses it as JSON (`json.loads`; a
`JSONDecodeError` is swallowed), and interprets the resulting value;
after the stream ends it writes the accumulated narrative text to the log
file.

Values produced by `json.loads` are modelled by the mutual inductive
`JVal` (JSON numbers are modelled as integers; floating point is not
modelled).  `json.loads` itself is an external library call, so the
decoder is parameterised by a parse function `String → Option JVal`
(`none` = `JSONDecodeError`).  Python raises `AttributeError` when `.get`
is called on a non-dict and `TypeError` when `in`/set-membership is used
on unsuitable values; only `JSONDecodeError` is caught by the source, so
any such exception aborts the whole loop: the embedding threads an
explicit crash flag (`Bool`).  `print(..., flush=True)` calls are recorded
as `DEvent`s: `progress` for the tool line (which carries the announcing
tool-use id for specification purposes; the printed text is the name and
detail), `textOut` for a text fragment printed with `end=""`.  Python's
`str`/`repr` of parsed-JSON values is modelled by `pyStr`/`pyRepr`
(`repr` of a string is modelled for strings without unprintable
characters: delimiter choice and escaping of backslash, the delimiter,
newline, carriage return and tab). -/

mutual
inductive JVal where
  | jstr : String → JVal
  | jint : Int → JVal
  | jbool : Bool → JVal
  | jnull : JVal
  | jarr : JArr → JVal
  | jobj : JObj → JVal
inductive JArr where
  | anil : JArr
  | acons : JVal → JArr → JArr
inductive JObj where
  | onil : JObj
  | ocons : String → JVal → JObj → JObj
end

/-- Python `dict` lookup (dicts produced by `json.loads` have unique
keys). -/
def JObj.lookup : JObj → String → Option JVal
  | JObj.onil, _ => none
  | JObj.ocons k v rest, key => if k = key then some v else rest.lookup key

/-- Python `v.get(k, d)`: `none` models the `AttributeError` raised when
`v` is not a dict. -/
def pyGetD : JVal → String → JVal → Option JVal
  | JVal.jobj o, k, d => some ((o.lookup k).getD d)
  | _, _, _ => none

/-- Python truthiness of a parsed-JSON value. -/
def pyTruthy : JVal → Bool
  | JVal.jstr s => !(s == "")
  | JVal.jint n => !(n == 0)
  | JVal.jbool b => b
  | JVal.jnull => false
  | JVal.jarr JArr.anil => false
  | JVal.jarr _ => true
  | JVal.jobj JObj.onil => false
  | JVal.jobj _ => true

/-- Python `v == lit` for a string literal `lit`: true only when `v` is
that string. -/
def jvalIsStr : JVal → String → Bool
  | JVal.jstr s, t => s == t
  | _, _ => false

/-- The single-quote character. -/
def sqCh : Char := Char.ofNat 39

/-- The double-quote character. -/
def dqCh : Char := Char.ofNat 34

/-- One character of Python `repr` of a string, given the chosen
delimiter. -/
def pyReprEsc (delim c : Char) : String :=
  if c = '\\' then "\\\\"
  else if c = delim then String.mk ['\\', delim]
  else if c = '\n' then "\\n"
  else if c = '\r' then "\\r"
  else if c = '\t' then "\\t"
  else String.singleton c

/-- Python `c in s` for a character: membership among the string's
characters. -/
def strHasChar (s : String) (c : Char) : Bool := s.toList.contains c

/-- Python `repr` of a string: single-quote delimited, unless the string
contains a single quote and no double quote. -/
def pyReprStr (s : String) : String :=
  let delim := if strHasChar s sqCh && !(strHasChar s dqCh) then dqCh else sqCh
  String.singleton delim ++ String.join (s.toList.map (pyReprEsc delim)) ++
    String.singleton delim

mutual
/-- Python `repr` of a parsed-JSON value. -/
def pyRepr : JVal → String
  | JVal.jstr s => pyReprStr s
  | JVal.jint n => toString n
  | JVal.jbool b => if b then "True" else "False"
  | JVal.jnull => "None"
  | JVal.jarr a => "[" ++ pyReprArr a ++ "]"
  | JVal.jobj o => "\x7b" ++ pyReprObj o ++ "\x7d"
/-- Comma-separated `repr`s of list elements. -/
def pyReprArr : JArr → String
  | JArr.anil => ""
  | JArr.acons v JArr.anil => pyRepr v
  | JArr.acons v rest => pyRepr v ++ ", " ++ pyReprArr rest
/-- Comma-separated `key: value` `repr`s of dict items. -/
def pyReprObj : JObj → String
  | JObj.onil => ""
  | JObj.ocons k v JObj.onil => pyReprStr k ++ ": " ++ pyRepr v
  | JObj.ocons k v rest => pyReprStr k ++ ": " ++ pyRepr v ++ ", " ++ pyReprObj rest
end

/-- Python `str` of a parsed-JSON value (`str` and `repr` agree on
everything `json.loads` produces except strings). -/
def pyStr : JVal → String
  | JVal.jstr s => s
  | v => pyRepr v

/-- Characters stripped by Python `str.strip()` (ASCII whitespace;
unicode whitespace is not modelled). -/
def pyWsChar (c : Char) : Bool :=
  c == ' ' || c == '\t' || c == '\n' || c == '\r' ||
    c == Char.ofNat 11 || c == Char.ofNat 12

/-- Python `line.strip()`. -/
def pyStrip (s : String) : String :=
  String.mk (((s.toList.dropWhile pyWsChar).reverse.dropWhile pyWsChar).reverse)

def charsPre : List Char → List Char → Bool
  | [], _ => true
  | _ :: _, [] => false
  | a :: as, b :: bs => a == b && charsPre as bs

def charsSub (needle : List Char) : List Char → Bool
  | [] => charsPre needle []
  | h :: t => charsPre needle (h :: t) || charsSub needle t

/-- Python `needle in hay` for strings: substring containment (the empty
string is contained in everything). -/
def pyIn (needle hay : String) : Bool := charsSub needle.toList hay.toList

/-- A hashable Python value usable as a set element; `json.loads`
booleans hash like the integers 0/1 (`True == 1` in Python).  Lists and
dicts are unhashable (`TypeError`). -/
inductive HKey where
  | hstr (s : String)
  | hnum (n : Int)
  | hnull
deriving DecidableEq

/-- The set key of a parsed-JSON value, or `none` when adding it to a set
raises `TypeError`. -/
def hashKey : JVal → Option HKey
  | JVal.jstr s => some (HKey.hstr s)
  | JVal.jint n => some (HKey.hnum n)
  | JVal.jbool b => some (HKey.hnum (if b then 1 else 0))
  | JVal.jnull => some HKey.hnull
  | _ => none

/-- One `print` call of `stream_parser.py`: a tool progress line
(`print(f"  🔧 {tool_name}: {detail}", flush=True)`, tagged with the
announcing tool-use id) or a text fragment (`print(text, end="",
flush=True)`). -/
inductive DEvent where
  | progress (tid : HKey) (toolName : String) (detail : String)
  | textOut (s : String)
deriving DecidableEq

/-- Decoder state: `full_text`, `seen_tools`, the raw lines written to
the jsonl archive, and the stdout events. -/
structure DecState where
  fullText : String
  seenTools : List HKey
  jsonlW : List String
  out : List DEvent
deriving DecidableEq

/-- Initial decoder state. -/
def decInit : DecState :=
  { fullText := "", seenTools := [], jsonlW := [], out := [] }

example : pyRepr (JVal.jstr "foo") = String.mk [sqCh, 'f', 'o', 'o', sqCh] := by decide

example : pyIn "ell" "Hello" = true := by decide

example : pyIn "elx" "Hello" = false := by decide

example : pyStrip "  a b\n" = "a b" := by decide

/-- Python list slicing `l[:n]`. -/
def JArr.take : Nat → JArr → JArr
  | 0, _ => JArr.anil
  | _, JArr.anil => JArr.anil
  | n + 1, JArr.acons v rest => JArr.acons v (JArr.take n rest)

/-- Lines 45-59 of `stream_parser.py`: the tool-name-dependent detail
string, with Python `str` folded in at the point the f-string renders it.
`none` models an uncaught exception: `AttributeError` when `inp` is not a
dict, or `TypeError` when a `Bash` command value cannot be sliced. -/
def toolDetail (nameV : JVal) (inpV : JVal) : Option String :=
  if jvalIsStr nameV "Read" then
    (pyGetD inpV "file_path" (JVal.jstr "")).map pyStr
  else if jvalIsStr nameV "Grep" then
    match pyGetD inpV "pattern" (JVal.jstr ""), pyGetD inpV "path" (JVal.jstr ".") with
    | some pat, some path => some ("pattern=" ++ pyRepr pat ++ " in " ++ pyStr path)
    | _, _ => none
  else if jvalIsStr nameV "Glob" then
    (pyGetD inpV "pattern" (JVal.jstr "")).map pyStr
  else if jvalIsStr nameV "Bash" then
    match pyGetD inpV "command" (JVal.jstr "") with
    | some (JVal.jstr s) => some (s.take 80)
    | some (JVal.jarr a) => some (pyRepr (JVal.jarr (JArr.take 80 a)))
    | some _ => none
    | none => none
  else if jvalIsStr nameV "Task" then
    (pyGetD inpV "description" (JVal.jstr "")).map pyStr
  else
    (pyGetD inpV "description" (JVal.jstr ((pyStr inpV).take 60))).map pyStr

/-- Lines 62-66 (and identically 75-79) of `stream_parser.py`:
`text = block.get("text", ""); if text and text not in full_text:
print(text, end="", flush=True); full_text += text`.  The truthiness test
short-circuits, so a falsy non-string is skipped; a truthy non-string
raises `TypeError` at `in` (crash flag `true`). -/
def handleTextVal (st : DecState) (textV : JVal) : DecState × Bool :=
  if pyTruthy textV then
    match textV with
    | JVal.jstr s =>
        if pyIn s st.fullText then (st, false)
        else ({ st with fullText := st.fullText ++ s,
                        out := st.out ++ [DEvent.textOut s] }, false)
    | _ => (st, true)
  else (st, false)

/-- Lines 39-66 of `stream_parser.py`, one content block of an assistant
message.  `block.get("type")` raises on a non-dict block; a `tool_use`
block is announced only when its id has not been seen (the id is added to
`seen_tools` before the detail is computed, as in the source); a `text`
block goes through the shared text-fragment logic; other types do
nothing. -/
def handleBlock (st : DecState) (block : JVal) : DecState × Bool :=
  match block with
  | JVal.jobj o =>
      let tV := (o.lookup "type").getD JVal.jnull
      if jvalIsStr tV "tool_use" then
        let nameV := (o.lookup "name").getD (JVal.jstr "unknown")
        let idV := (o.lookup "id").getD (JVal.jstr "")
        match hashKey idV with
        | none => (st, true)
        | some tid =>
            if tid ∈ st.seenTools then (st, false)
            else
              let st1 := { st with seenTools := st.seenTools ++ [tid] }
              let inpV := (o.lookup "input").getD (JVal.jobj JObj.onil)
              match toolDetail nameV inpV with
              | none => (st1, true)
              | some d =>
                  ({ st1 with out := st1.out ++ [DEvent.progress tid (pyStr nameV) d] },
                    false)
      else if jvalIsStr tV "text" then
        handleTextVal st ((o.lookup "text").getD (JVal.jstr ""))
      else (st, false)
  | _ => (st, true)

/-- Lines 74-79 of `stream_parser.py`, one content block of a result
payload: only `text` blocks are interpreted. -/
def handleResultBlock (st : DecState) (block : JVal) : DecState × Bool :=
  match block with
  | JVal.jobj o =>
      if jvalIsStr ((o.lookup "type").getD JVal.jnull) "text" then
        handleTextVal st ((o.lookup "text").getD (JVal.jstr ""))
      else (st, false)
  | _ => (st, true)

/-- The `for block in content` loop of the assistant branch; a crash
aborts the iteration. -/
def assistLoop : DecState → JArr → DecState × Bool
  | st, JArr.anil => (st, false)
  | st, JArr.acons b rest =>
      let r := handleBlock st b
      if r.2 then r else assistLoop r.1 rest

/-- The `for block in content` loop of the result branch. -/
def resultLoop : DecState → JArr → DecState × Bool
  | st, JArr.anil => (st, false)
  | st, JArr.acons b rest =>
      let r := handleResultBlock st b
      if r.2 then r else resultLoop r.1 rest

/-- Lines 29-79 of `stream_parser.py`: interpretation of one parsed
value.  `obj.get("type", "")` raises on a non-dict; the assistant branch
takes `obj.get("message", {})` (raising on a non-dict message at
`message.get`), skips silently when the content is not a list, and
iterates blocks; the result branch takes
`obj.get("result", obj.get("message", {}))`, skips silently unless it is
a dict whose content is a list, and iterates blocks; other kinds do
nothing. -/
def handleObj (st : DecState) (obj : JVal) : DecState × Bool :=
  match obj with
  | JVal.jobj o =>
      let msgType := (o.lookup "type").getD (JVal.jstr "")
      if jvalIsStr msgType "assistant" then
        match (o.lookup "message").getD (JVal.jobj JObj.onil) with
        | JVal.jobj mo =>
            match (mo.lookup "content").getD (JVal.jarr JArr.anil) with
            | JVal.jarr a => assistLoop st a
            | _ => (st, false)
        | _ => (st, true)
      else if jvalIsStr msgType "result" then
        match (o.lookup "result").getD ((o.lookup "message").getD (JVal.jobj JObj.onil)) with
        | JVal.jobj ro =>
            match (ro.lookup "content").getD (JVal.jarr JArr.anil) with
            | JVal.jarr a => resultLoop st a
            | _ => (st, false)
        | _ => (st, false)
      else (st, false)
  | _ => (st, true)

/-- Lines 19-82 of `stream_parser.py`, one line of stdin: archive the raw
line and flush, strip, skip empty lines, parse (`p` models `json.loads`;
`none` is a swallowed `JSONDecodeError`), interpret. -/
def processLine (p : String → Option JVal) (st : DecState) (line : String) :
    DecState × Bool :=
  let st1 := { st with jsonlW := st.jsonlW ++ [line] }
  let stripped := pyStrip line
  if stripped = "" then (st1, false)
  else
    match p stripped with
    | none => (st1, false)
    | some obj => handleObj st1 obj

/-- The `for line in sys.stdin` loop: processes lines until the stream
ends or an uncaught exception aborts the program. -/
def decodeLines (p : String → Option JVal) : DecState → List String → DecState × Bool
  | st, [] => (st, false)
  | st, l :: ls =>
      let r := processLine p st l
      if r.2 then r else decodeLines p r.1 ls

/-- Result of a run of `stream_parser.main` over a line stream: the final
state, whether an uncaught exception aborted the run, and the content of
the narrative (log) file, written once at stream end — `none` when the
run crashed before reaching that write. -/
structure DecRun where
  state : DecState
  crashed : Bool
  narrative : Option String
deriving DecidableEq

/-- `stream_parser.main` (lines 7-86), over a list of stdin lines and a
parse function modelling `json.loads`. -/
def runDecoder (p : String → Option JVal) (lines : List String) : DecRun :=
  let r := decodeLines p decInit lines
  { state := r.1, crashed := r.2,
    narrative := if r.2 then none else some r.1.fullText }

/-- Number of progress lines announcing the tool-use id `tid`. -/
def progressCount (tid : HKey) (evs : List DEvent) : Nat :=
  (evs.filter fun e => match e with
    | DEvent.progress t _ _ => t == tid
    | _ => false).length

lemma progressCount_append (tid : HKey) (a b : List DEvent) :
    progressCount tid (a ++ b) = progressCount tid a + progressCount tid b := by
  simp [progressCount, List.filter_append]

lemma progressCount_textOut (tid : HKey) (s : String) :
    progressCount tid [DEvent.textOut s] = 0 := rfl

lemma progressCount_progress (tid t : HKey) (n d : String) :
    progressCount tid [DEvent.progress t n d] = if t = tid then 1 else 0 := by
  by_cases h : t = tid <;> simp [progressCount, h]

/-- The dedup invariant of the decoder: a tool id not in `seen_tools` has
never been announced, and no id is ever announced more than once. -/
def C5Inv (st : DecState) : Prop :=
  ∀ tid : HKey, (tid ∉ st.seenTools → progressCount tid st.out = 0) ∧
    progressCount tid st.out ≤ 1

lemma c5inv_congr (st st' : DecState) (hseen : st'.seenTools = st.seenTools)
    (hout : st'.out = st.out) (h : C5Inv st) : C5Inv st' := by
  intro tid
  rw [hseen, hout]
  exact h tid

lemma c5inv_emitText (st : DecState) (s : String) (h : C5Inv st) :
    C5Inv { st with fullText := st.fullText ++ s,
                    out := st.out ++ [DEvent.textOut s] } := by
  intro tid
  show (tid ∉ st.seenTools → progressCount tid (st.out ++ [DEvent.textOut s]) = 0) ∧
    progressCount tid (st.out ++ [DEvent.textOut s]) ≤ 1
  rw [progressCount_append, progressCount_textOut]
  constructor
  · intro hmem
    simp [(h tid).1 hmem]
  · simpa using (h tid).2

lemma c5inv_growSeen (st : DecState) (tid : HKey) (h : C5Inv st) :
    C5Inv { st with seenTools := st.seenTools ++ [tid] } := by
  intro tid'
  show (tid' ∉ st.seenTools ++ [tid] → progressCount tid' st.out = 0) ∧
    progressCount tid' st.out ≤ 1
  constructor
  · intro hmem
    exact (h tid').1 (fun hx => hmem (List.mem_append_left _ hx))
  · exact (h tid').2

lemma c5inv_announce (st : DecState) (tid : HKey) (name d : String)
    (hmem : tid ∉ st.seenTools) (h : C5Inv st) :
    C5Inv { st with seenTools := st.seenTools ++ [tid],
                    out := st.out ++ [DEvent.progress tid name d] } := by
  intro tid'
  show (tid' ∉ st.seenTools ++ [tid] →
      progressCount tid' (st.out ++ [DEvent.progress tid name d]) = 0) ∧
    progressCount tid' (st.out ++ [DEvent.progress tid name d]) ≤ 1
  rw [progressCount_append, progressCount_progress]
  by_cases he : tid = tid'
  · subst he
    have h0 : progressCount tid st.out = 0 := (h tid).1 hmem
    constructor
    · intro hmem'
      exact absurd (List.mem_append_right _ (by simp)) hmem'
    · simp [h0]
  · constructor
    · intro hmem'
      have hx : tid' ∉ st.seenTools := fun hy => hmem' (List.mem_append_left _ hy)
      simp [he, (h tid').1 hx]
    · simpa [he] using (h tid').2

lemma c5inv_handleTextVal (st : DecState) (v : JVal) (h : C5Inv st) :
    C5Inv (handleTextVal st v).1 := by
  by_cases ht : pyTruthy v
  · cases v with
    | jstr s =>
        by_cases hi : pyIn s st.fullText
        · simpa [handleTextVal, ht, hi] using h
        · simpa [handleTextVal, ht, hi] using c5inv_emitText st s h
    | jint n => simpa [handleTextVal, ht] using h
    | jbool b => simpa [handleTextVal, ht] using h
    | jnull => simpa [handleTextVal, ht] using h
    | jarr a => simpa [handleTextVal, ht] using h
    | jobj o => simpa [handleTextVal, ht] using h
  · simpa [handleTextVal, ht] using h

lemma c5inv_handleBlock (st : DecState) (b : JVal) (h : C5Inv st) :
    C5Inv (handleBlock st b).1 := by
  cases b with
  | jobj o =>
      by_cases htool : jvalIsStr ((o.lookup "type").getD JVal.jnull) "tool_use"
      · cases hk : hashKey ((o.lookup "id").getD (JVal.jstr "")) with
        | none => simpa [handleBlock, htool, hk] using h
        | some tid =>
            by_cases hmem : tid ∈ st.seenTools
            · simpa [handleBlock, htool, hk, hmem] using h
            · cases hd : toolDetail ((o.lookup "name").getD (JVal.jstr "unknown"))
                  ((o.lookup "input").getD (JVal.jobj JObj.onil)) with
              | none =>
                  simpa [handleBlock, htool, hk, hmem, hd] using
                    c5inv_growSeen st tid h
              | some d =>
                  simpa [handleBlock, htool, hk, hmem, hd] using
                    c5inv_announce st tid
                      (pyStr ((o.lookup "name").getD (JVal.jstr "unknown"))) d hmem h
      · by_cases htext : jvalIsStr ((o.lookup "type").getD JVal.jnull) "text"
        · simpa [handleBlock, htool, htext] using
            c5inv_handleTextVal st ((o.lookup "text").getD (JVal.jstr "")) h
        · simpa [handleBlock, htool, htext] using h
  | jstr s => simpa [handleBlock] using h
  | jint n => simpa [handleBlock] using h
  | jbool b => simpa [handleBlock] using h
  | jnull => simpa [handleBlock] using h
  | jarr a => simpa [handleBlock] using h

lemma c5inv_handleResultBlock (st : DecState) (b : JVal) (h : C5Inv st) :
    C5Inv (handleResultBlock st b).1 := by
  cases b with
  | jobj o =>
      by_cases htext : jvalIsStr ((o.lookup "type").getD JVal.jnull) "text"
      · simpa [handleResultBlock, htext] using
          c5inv_handleTextVal st ((o.lookup "text").getD (JVal.jstr "")) h
      · simpa [handleResultBlock, htext] using h
  | jstr s => simpa [handleResultBlock] using h
  | jint n => simpa [handleResultBlock] using h
  | jbool b => simpa [handleResultBlock] using h
  | jnull => simpa [handleResultBlock] using h
  | jarr a => simpa [handleResultBlock] using h

lemma c5inv_assistLoop : ∀ (a : JArr) (st : DecState),
    C5Inv st → C5Inv (assistLoop st a).1
  | JArr.anil, _, h => h
  | JArr.acons b rest, st, h => by
      have hb := c5inv_handleBlock st b h
      simp only [assistLoop]
      cases hr : (handleBlock st b).2
      · simpa [hr] using c5inv_assistLoop rest (handleBlock st b).1 hb
      · simpa [hr] using hb

lemma c5inv_resultLoop : ∀ (a : JArr) (st : DecState),
    C5Inv st → C5Inv (resultLoop st a).1
  | JArr.anil, _, h => h
  | JArr.acons b rest, st, h => by
      have hb := c5inv_handleResultBlock st b h
      simp only [resultLoop]
      cases hr : (handleResultBlock st b).2
      · simpa [hr] using c5inv_resultLoop rest (handleResultBlock st b).1 hb
      · simpa [hr] using hb

lemma c5inv_handleObj (st : DecState) (obj : JVal) (h : C5Inv st) :
    C5Inv (handleObj st obj).1 := by
  cases obj with
  | jobj o =>
      by_cases ha : jvalIsStr ((o.lookup "type").getD (JVal.jstr "")) "assistant"
      · cases hm : (o.lookup "message").getD (JVal.jobj JObj.onil) with
        | jobj mo =>
            cases hc : (mo.lookup "content").getD (JVal.jarr JArr.anil) with
            | jarr a => simpa [handleObj, ha, hm, hc] using c5inv_assistLoop a st h
            | jstr s => simpa [handleObj, ha, hm, hc] using h
            | jint n => simpa [handleObj, ha, hm, hc] using h
            | jbool b => simpa [handleObj, ha, hm, hc] using h
            | jnull => simpa [handleObj, ha, hm, hc] using h
            | jobj oo => simpa [handleObj, ha, hm, hc] using h
        | jstr s => simpa [handleObj, ha, hm] using h
        | jint n => simpa [handleObj, ha, hm] using h
        | jbool b => simpa [handleObj, ha, hm] using h
        | jnull => simpa [handleObj, ha, hm] using h
        | jarr a => simpa [handleObj, ha, hm] using h
      · by_cases hrk : jvalIsStr ((o.lookup "type").getD (JVal.jstr "")) "result"
        · cases hm : (o.lookup "result").getD
              ((o.lookup "message").getD (JVal.jobj JObj.onil)) with
          | jobj ro =>
              cases hc : (ro.lookup "content").getD (JVal.jarr JArr.anil) with
              | jarr a => simpa [handleObj, ha, hrk, hm, hc] using c5inv_resultLoop a st h
              | jstr s => simpa [handleObj, ha, hrk, hm, hc] using h
              | jint n => simpa [handleObj, ha, hrk, hm, hc] using h
              | jbool b => simpa [handleObj, ha, hrk, hm, hc] using h
              | jnull => simpa [handleObj, ha, hrk, hm, hc] using h
              | jobj oo => simpa [handleObj, ha, hrk, hm, hc] using h
          | jstr s => simpa [handleObj, ha, hrk, hm] using h
          | jint n => simpa [handleObj, ha, hrk, hm] using h
          | jbool b => simpa [handleObj, ha, hrk, hm] using h
          | jnull => simpa [handleObj, ha, hrk, hm] using h
          | jarr a => simpa [handleObj, ha, hrk, hm] using h
        · simpa [handleObj, ha, hrk] using h
  | jstr s => simpa [handleObj] using h
  | jint n => simpa [handleObj] using h
  | jbool b => simpa [handleObj] using h
  | jnull => simpa [handleObj] using h
  | jarr a => simpa [handleObj] using h

lemma c5inv_processLine (p : String → Option JVal) (st : DecState) (line : String)
    (h : C5Inv st) : C5Inv (processLine p st line).1 := by
  have hjs : C5Inv { st with jsonlW := st.jsonlW ++ [line] } :=
    c5inv_congr _ st rfl rfl h
  by_cases he : pyStrip line = ""
  · simpa [processLine, he] using hjs
  · cases hp : p (pyStrip line) with
    | none => simpa [processLine, he, hp] using hjs
    | some obj => simpa [processLine, he, hp] using c5inv_handleObj _ obj hjs

lemma c5inv_decodeLines (p : String → Option JVal) :
    ∀ (lines : List String) (st : DecState),
      C5Inv st → C5Inv (decodeLines p st lines).1 := by
  intro lines
  induction lines with
  | nil => exact fun st h => h
  | cons l ls ih =>
      intro st h
      have hl := c5inv_processLine p st l h
      simp only [decodeLines]
      cases hr : (processLine p st l).2
      · simpa [hr] using ih (processLine p st l).1 hl
      · simpa [hr] using hl

lemma c5inv_decInit : C5Inv decInit := by
  intro tid
  exact ⟨fun _ => rfl, by simp [decInit, progressCount]⟩

/-- A `tool_use` content block, as in the wire shape of the spec. -/
def toolUseBlock (name id : String) (inp : JVal) : JVal :=
  JVal.jobj (JObj.ocons "type" (JVal.jstr "tool_use")
    (JObj.ocons "id" (JVal.jstr id)
      (JObj.ocons "name" (JVal.jstr name)
        (JObj.ocons "input" inp JObj.onil))))

/-- A `text` content block. -/
def textBlock (s : String) : JVal :=
  JVal.jobj (JObj.ocons "type" (JVal.jstr "text")
    (JObj.ocons "text" (JVal.jstr s) JObj.onil))

/-- An assistant-message record with the given content sequence. -/
def assistantMsg (content : JArr) : JVal :=
  JVal.jobj (JObj.ocons "type" (JVal.jstr "assistant")
    (JObj.ocons "message"
      (JVal.jobj (JObj.ocons "content" (JVal.jarr content) JObj.onil)) JObj.onil))

/-- An assistant-message record holding one tool invocation. -/
def singleToolMsg (name id : String) (inp : JVal) : JVal :=
  assistantMsg (JArr.acons (toolUseBlock name id inp) JArr.anil)

/-- Parse function for the C5 scenario: two lines, each carrying the same
tool invocation with id `t1`. -/
def exParseTool : String → Option JVal := fun s =>
  if s = "lineA" then
    some (singleToolMsg "Read" "t1"
      (JVal.jobj (JObj.ocons "file_path" (JVal.jstr "/a.txt") JObj.onil)))
  else if s = "lineB" then
    some (singleToolMsg "Read" "t1"
      (JVal.jobj (JObj.ocons "file_path" (JVal.jstr "/a.txt") JObj.onil)))
  else none

/-- Claim C5: over any input line stream (any parse outcomes), every
tool-invocation identifier is announced at most once; and in the concrete
scenario where the tool invocation `t1` appears in two different lines,
exactly one progress line for `t1` is rendered. -/
theorem stream_tool_announced_once :
    (∀ (p : String → Option JVal) (lines : List String) (tid : HKey),
      progressCount tid (runDecoder p lines).state.out ≤ 1) ∧
    progressCount (HKey.hstr "t1")
      (runDecoder exParseTool ["lineA", "lineB"]).state.out = 1 := by
  constructor
  · intro p lines tid
    exact ((c5inv_decodeLines p lines decInit c5inv_decInit) tid).2
  · decide

lemma handleBlock_textBlock (st : DecState) (s : String) :
    handleBlock st (textBlock s) = handleTextVal st (JVal.jstr s) := by
  simp [handleBlock, textBlock, JObj.lookup, jvalIsStr]

lemma handleTextVal_noCrash (st : DecState) (s : String) :
    (handleTextVal st (JVal.jstr s)).2 = false := by
  by_cases ht : pyTruthy (JVal.jstr s)
  · by_cases hi : pyIn s st.fullText <;> simp [handleTextVal, ht, hi]
  · simp [handleTextVal, ht]

/-- The emission condition of the claim: the fragment is non-empty and
not yet a substring of the accumulated narrative. -/
def freshText (st : DecState) (s : String) : Bool :=
  !(s == "") && !(pyIn s st.fullText)

/-- Parse function for the C6 scenario: two assistant lines each carrying
the text fragment `Hello`. -/
def exParseHello : String → Option JVal := fun s =>
  if s = "h1" then some (assistantMsg (JArr.acons (textBlock "Hello") JArr.anil))
  else if s = "h2" then some (assistantMsg (JArr.acons (textBlock "Hello") JArr.anil))
  else none

/-- Claim C6: a text fragment is printed to the live sink and appended to
the accumulated narrative exactly when it is non-empty and not already a
substring of the narrative (first conjunct, over arbitrary decoder
states); in the concrete two-line scenario repeating `Hello`, the live
sink receives `Hello` exactly once and the final narrative file is
exactly `Hello`. -/
theorem stream_text_emit_iff_fresh :
    (∀ (st : DecState) (s : String),
      assistLoop st (JArr.acons (textBlock s) JArr.anil) =
        (if freshText st s
          then ({ st with fullText := st.fullText ++ s,
                          out := st.out ++ [DEvent.textOut s] }, false)
          else (st, false))) ∧
    (runDecoder exParseHello ["h1", "h2"]).state.out = [DEvent.textOut "Hello"] ∧
    (runDecoder exParseHello ["h1", "h2"]).narrative = some "Hello" := by
  refine ⟨?_, by decide, by decide⟩
  intro st s
  have hb := handleBlock_textBlock st s
  have hnc := handleTextVal_noCrash st s
  simp only [assistLoop, hb, hnc, Bool.false_eq_true, if_false]
  by_cases hs : s = ""
  · subst hs
    simp [handleTextVal, pyTruthy, freshText, assistLoop]
  · by_cases hi : pyIn s st.fullText
    · simp [handleTextVal, pyTruthy, freshText, hs, hi, assistLoop]
    · simp [handleTextVal, pyTruthy, freshText, hs, hi, assistLoop]

lemma jsonl_handleTextVal (st : DecState) (v : JVal) :
    (handleTextVal st v).1.jsonlW = st.jsonlW := by
  by_cases ht : pyTruthy v
  · cases v with
    | jstr s =>
        by_cases hi : pyIn s st.fullText <;> simp [handleTextVal, ht, hi]
    | jint n => simp [handleTextVal, ht]
    | jbool b => simp [handleTextVal, ht]
    | jnull => simp [handleTextVal, ht]
    | jarr a => simp [handleTextVal, ht]
    | jobj o => simp [handleTextVal, ht]
  · simp [handleTextVal, ht]

lemma jsonl_handleBlock (st : DecState) (b : JVal) :
    (handleBlock st b).1.jsonlW = st.jsonlW := by
  cases b with
  | jobj o =>
      by_cases htool : jvalIsStr ((o.lookup "type").getD JVal.jnull) "tool_use"
      · cases hk : hashKey ((o.lookup "id").getD (JVal.jstr "")) with
        | none => simp [handleBlock, htool, hk]
        | some tid =>
            by_cases hmem : tid ∈ st.seenTools
            · simp [handleBlock, htool, hk, hmem]
            · cases hd : toolDetail ((o.lookup "name").getD (JVal.jstr "unknown"))
                  ((o.lookup "input").getD (JVal.jobj JObj.onil)) with
              | none => simp [handleBlock, htool, hk, hmem, hd]
              | some d => simp [handleBlock, htool, hk, hmem, hd]
      · by_cases htext : jvalIsStr ((o.lookup "type").getD JVal.jnull) "text"
        · simpa [handleBlock, htool, htext] using
            jsonl_handleTextVal st ((o.lookup "text").getD (JVal.jstr ""))
        · simp [handleBlock, htool, htext]
  | jstr s => simp [handleBlock]
  | jint n => simp [handleBlock]
  | jbool b => simp [handleBlock]
  | jnull => simp [handleBlock]
  | jarr a => simp [handleBlock]

lemma jsonl_handleResultBlock (st : DecState) (b : JVal) :
    (handleResultBlock st b).1.jsonlW = st.jsonlW := by
  cases b with
  | jobj o =>
      by_cases htext : jvalIsStr ((o.lookup "type").getD JVal.jnull) "text"
      · simpa [handleResultBlock, htext] using
          jsonl_handleTextVal st ((o.lookup "text").getD (JVal.jstr ""))
      · simp [handleResultBlock, htext]
  | jstr s => simp [handleResultBlock]
  | jint n => simp [handleResultBlock]
  | jbool b => simp [handleResultBlock]
  | jnull => simp [handleResultBlock]
  | jarr a => simp [handleResultBlock]

lemma jsonl_assistLoop : ∀ (a : JArr) (st : DecState),
    (assistLoop st a).1.jsonlW = st.jsonlW
  | JArr.anil, _ => rfl
  | JArr.acons b rest, st => by
      simp only [assistLoop]
      cases hr : (handleBlock st b).2
      · simpa [hr] using
          (jsonl_assistLoop rest (handleBlock st b).1).trans (jsonl_handleBlock st b)
      · simpa [hr] using jsonl_handleBlock st b

lemma jsonl_resultLoop : ∀ (a : JArr) (st : DecState),
    (resultLoop st a).1.jsonlW = st.jsonlW
  | JArr.anil, _ => rfl
  | JArr.acons b rest, st => by
      simp only [resultLoop]
      cases hr : (handleResultBlock st b).2
      · simpa [hr] using
          (jsonl_resultLoop rest (handleResultBlock st b).1).trans
            (jsonl_handleResultBlock st b)
      · simpa [hr] using jsonl_handleResultBlock st b

lemma jsonl_handleObj (st : DecState) (obj : JVal) :
    (handleObj st obj).1.jsonlW = st.jsonlW := by
  cases obj with
  | jobj o =>
      by_cases ha : jvalIsStr ((o.lookup "type").getD (JVal.jstr "")) "assistant"
      · cases hm : (o.lookup "message").getD (JVal.jobj JObj.onil) with
        | jobj mo =>
            cases hc : (mo.lookup "content").getD (JVal.jarr JArr.anil) with
            | jarr a => simpa [handleObj, ha, hm, hc] using jsonl_assistLoop a st
            | jstr s => simp [handleObj, ha, hm, hc]
            | jint n => simp [handleObj, ha, hm, hc]
            | jbool b => simp [handleObj, ha, hm, hc]
            | jnull => simp [handleObj, ha, hm, hc]
            | jobj oo => simp [handleObj, ha, hm, hc]
        | jstr s => simp [handleObj, ha, hm]
        | jint n => simp [handleObj, ha, hm]
        | jbool b => simp [handleObj, ha, hm]
        | jnull => simp [handleObj, ha, hm]
        | jarr a => simp [handleObj, ha, hm]
      · by_cases hrk : jvalIsStr ((o.lookup "type").getD (JVal.jstr "")) "result"
        · cases hm : (o.lookup "result").getD
              ((o.lookup "message").getD (JVal.jobj JObj.onil)) with
          | jobj ro =>
              cases hc : (ro.lookup "content").getD (JVal.jarr JArr.anil) with
              | jarr a => simpa [handleObj, ha, hrk, hm, hc] using jsonl_resultLoop a st
              | jstr s => simp [handleObj, ha, hrk, hm, hc]
              | jint n => simp [handleObj, ha, hrk, hm, hc]
              | jbool b => simp [handleObj, ha, hrk, hm, hc]
              | jnull => simp [handleObj, ha, hrk, hm, hc]
              | jobj oo => simp [handleObj, ha, hrk, hm, hc]
          | jstr s => simp [handleObj, ha, hrk, hm]
          | jint n => simp [handleObj, ha, hrk, hm]
          | jbool b => simp [handleObj, ha, hrk, hm]
          | jnull => simp [handleObj, ha, hrk, hm]
          | jarr a => simp [handleObj, ha, hrk, hm]
        · simp [handleObj, ha, hrk]
  | jstr s => simp [handleObj]
  | jint n => simp [handleObj]
  | jbool b => simp [handleObj]
  | jnull => simp [handleObj]
  | jarr a => simp [handleObj]

/-- Claim C7: the raw line is written to the record archive before any
interpretation (first conjunct: for every parse function, state and line
— including lines whose interpretation crashes — the archive gains
exactly the raw line); and a line that fails to parse changes nothing
else: no progress line, no narrative change, no crash (second conjunct). -/
theorem stream_archive_first (p : String → Option JVal) (st : DecState)
    (line : String) (h : p (pyStrip line) = none) :
    (∀ (q : String → Option JVal) (st2 : DecState) (l2 : String),
      (processLine q st2 l2).1.jsonlW = st2.jsonlW ++ [l2]) ∧
    processLine p st line = ({ st with jsonlW := st.jsonlW ++ [line] }, false) := by
  constructor
  · intro q st2 l2
    by_cases he : pyStrip l2 = ""
    · simp [processLine, he]
    · cases hp : q (pyStrip l2) with
      | none => simp [processLine, he, hp]
      | some obj =>
          simpa [processLine, he, hp] using
            jsonl_handleObj { st2 with jsonlW := st2.jsonlW ++ [l2] } obj
  · by_cases he : pyStrip line = ""
    · simp [processLine, he]
    · simp [processLine, he, h]

theorem stream_archive_first_witness :
    processLine (fun _ => none) decInit "not json" =
      ({ decInit with jsonlW := ["not json"] }, false) :=
  (stream_archive_first (fun _ => none) decInit "not json" rfl).2

lemma pyStr_jstr (s : String) : pyStr (JVal.jstr s) = s := rfl

/-- The tool names with a dedicated detail branch in lines 46-57. -/
def specialTool (n : String) : Bool :=
  n == "Read" || n == "Grep" || n == "Glob" || n == "Bash" || n == "Task"

/-- Parse function for the C8 scenario: one line carrying a `Grep`
invocation with input `pattern: "foo", path: "/src"`. -/
def exParseGrep : String → Option JVal := fun s =>
  if s = "lineG" then
    some (singleToolMsg "Grep" "g1"
      (JVal.jobj (JObj.ocons "pattern" (JVal.jstr "foo")
        (JObj.ocons "path" (JVal.jstr "/src") JObj.onil))))
  else none

/-- The detail string the source renders for the C8 Grep scenario. -/
def exGrepDetail : String :=
  "pattern=" ++ pyRepr (JVal.jstr "foo") ++ " in /src"

set_option maxRecDepth 100000 in
/-- Claim C8: the progress-line detail is tool-name-dependent.  In order:
any tool name outside the five special-cased ones shows its `description`
argument, defaulting to the first 60 characters of the textual form of
the whole argument mapping; `Read` shows the `file_path` argument; `Grep`
shows the quoted (`repr`) pattern and the path; `Glob` shows the pattern;
`Bash` shows the first 80 characters of the command; `Task` shows its
description.  Finally, the concrete run over a `Grep` invocation with
input `pattern: "foo", path: "/src"` renders a detail containing
`pattern='foo'` and `/src`. -/
theorem stream_tool_detail (fs : JObj) (id cmd name : String)
    (hname : specialTool name = false) :
    (handleObj decInit (singleToolMsg name id (JVal.jobj fs)) =
      ({ decInit with
          seenTools := [HKey.hstr id]
          out := [DEvent.progress (HKey.hstr id) name
            (pyStr ((fs.lookup "description").getD
              (JVal.jstr ((pyStr (JVal.jobj fs)).take 60))))] }, false)) ∧
    (handleObj decInit (singleToolMsg "Read" id (JVal.jobj fs)) =
      ({ decInit with
          seenTools := [HKey.hstr id]
          out := [DEvent.progress (HKey.hstr id) "Read"
            (pyStr ((fs.lookup "file_path").getD (JVal.jstr "")))] }, false)) ∧
    (handleObj decInit (singleToolMsg "Grep" id (JVal.jobj fs)) =
      ({ decInit with
          seenTools := [HKey.hstr id]
          out := [DEvent.progress (HKey.hstr id) "Grep"
            ("pattern=" ++ pyRepr ((fs.lookup "pattern").getD (JVal.jstr "")) ++
              " in " ++ pyStr ((fs.lookup "path").getD (JVal.jstr ".")))] }, false)) ∧
    (handleObj decInit (singleToolMsg "Glob" id (JVal.jobj fs)) =
      ({ decInit with
          seenTools := [HKey.hstr id]
          out := [DEvent.progress (HKey.hstr id) "Glob"
            (pyStr ((fs.lookup "pattern").getD (JVal.jstr "")))] }, false)) ∧
    (handleObj decInit (singleToolMsg "Bash" id
        (JVal.jobj (JObj.ocons "command" (JVal.jstr cmd) fs))) =
      ({ decInit with
          seenTools := [HKey.hstr id]
          out := [DEvent.progress (HKey.hstr id) "Bash" (cmd.take 80)] }, false)) ∧
    (handleObj decInit (singleToolMsg "Task" id (JVal.jobj fs)) =
      ({ decInit with
          seenTools := [HKey.hstr id]
          out := [DEvent.progress (HKey.hstr id) "Task"
            (pyStr ((fs.lookup "description").getD (JVal.jstr "")))] }, false)) ∧
    (runDecoder exParseGrep ["lineG"]).state.out =
      [DEvent.progress (HKey.hstr "g1") "Grep" exGrepDetail] ∧
    pyIn ("pattern=" ++ pyRepr (JVal.jstr "foo")) exGrepDetail = true ∧
    pyIn "/src" exGrepDetail = true := by
  obtain ⟨⟨⟨⟨h1, h2⟩, h3⟩, h4⟩, h5⟩ :
      (((¬name = "Read" ∧ ¬name = "Grep") ∧ ¬name = "Glob") ∧ ¬name = "Bash") ∧
        ¬name = "Task" := by
    simpa [specialTool] using hname
  refine ⟨?_, ?_, ?_, ?_, ?_, ?_, by decide, by decide, by decide⟩ <;>
    simp [handleObj, singleToolMsg, assistantMsg, toolUseBlock, JObj.lookup,
      assistLoop, handleBlock, hashKey, toolDetail, jvalIsStr, pyGetD, decInit,
      pyStr_jstr, h1, h2, h3, h4, h5]

set_option maxRecDepth 100000 in
theorem stream_tool_detail_witness :
    handleObj decInit (singleToolMsg "Fetch" "i" (JVal.jobj JObj.onil)) =
      ({ decInit with
          seenTools := [HKey.hstr "i"]
          out := [DEvent.progress (HKey.hstr "i") "Fetch" "\x7b\x7d"] }, false) :=
  (stream_tool_detail JObj.onil "i" "c" "Fetch" (by decide)).1

/-- A content sequence holding one `text` block per string. -/
def textBlocksArr : List String → JArr
  | [] => JArr.anil
  | s :: rest => JArr.acons (textBlock s) (textBlocksArr rest)

lemma handleResultBlock_textBlock (st : DecState) (s : String) :
    handleResultBlock st (textBlock s) = handleTextVal st (JVal.jstr s) := by
  simp [handleResultBlock, textBlock, JObj.lookup, jvalIsStr]

lemma resultLoop_eq_assistLoop_texts : ∀ (ts : List String) (st : DecState),
    resultLoop st (textBlocksArr ts) = assistLoop st (textBlocksArr ts)
  | [], _ => rfl
  | s :: rest, st => by
      have hb := handleBlock_textBlock st s
      have hrb := handleResultBlock_textBlock st s
      have hnc := handleTextVal_noCrash st s
      simp only [resultLoop, assistLoop, textBlocksArr, hb, hrb, hnc,
        Bool.false_eq_true, if_false]
      exact resultLoop_eq_assistLoop_texts rest (handleTextVal st (JVal.jstr s)).1

/-- Claim C9: for a `result` record the completion payload is located by
preferring the `result` field — when both `result` and `message` are
present, the record is interpreted exactly as if only `result` were
present (first conjunct); when `result` is absent, the `message` value is
used exactly as a `result` value would be (second conjunct); and a
`result` payload whose content is a sequence of text fragments is
processed by the very same not-already-seen emission logic as an
assistant message with that content (third conjunct). -/
theorem stream_result_precedence :
    (∀ (st : DecState) (rv mv : JVal) (rest : JObj),
      handleObj st (JVal.jobj (JObj.ocons "type" (JVal.jstr "result")
          (JObj.ocons "result" rv (JObj.ocons "message" mv rest)))) =
        handleObj st (JVal.jobj (JObj.ocons "type" (JVal.jstr "result")
          (JObj.ocons "result" rv rest)))) ∧
    (∀ (st : DecState) (mv : JVal),
      handleObj st (JVal.jobj (JObj.ocons "type" (JVal.jstr "result")
          (JObj.ocons "message" mv JObj.onil))) =
        handleObj st (JVal.jobj (JObj.ocons "type" (JVal.jstr "result")
          (JObj.ocons "result" mv JObj.onil)))) ∧
    (∀ (st : DecState) (ts : List String),
      handleObj st (JVal.jobj (JObj.ocons "type" (JVal.jstr "result")
          (JObj.ocons "result" (JVal.jobj (JObj.ocons "content"
            (JVal.jarr (textBlocksArr ts)) JObj.onil)) JObj.onil))) =
        handleObj st (assistantMsg (textBlocksArr ts))) := by
  refine ⟨?_, ?_, ?_⟩
  · intro st rv mv rest
    simp [handleObj, JObj.lookup, jvalIsStr]
  · intro st mv
    simp [handleObj, JObj.lookup, jvalIsStr]
  · intro st ts
    simp only [handleObj, assistantMsg, JObj.lookup, jvalIsStr]
    simp
    exact resultLoop_eq_assistLoop_texts ts st
